import Mathlib

/-!
Shallow embedding of the libwmp asynchronous logging engine
(src/include/wmp/log.hpp and src/unnamed/part_000, the canonical draft of
src/source/wmp/log.cpp; src/unnamed/part_001 is an identical earlier draft
of the same functions).

The engine state `log_t::data_t` is embedded as the structure `data_t`;
`std::ostream*` sink pointers are modelled as natural-number handles, the
`ofs_v` path map as an association list, and the OS-facing syslog calls as
an event list emitted by the dispatcher.  All critical sections in the
source are guarded by the single mutex `mutex_v`, so the cross-thread
behaviour is the interleaving of the atomic bodies embedded here.
-/

namespace Wmp

/-- The `log_t::levels_t` enumeration, declared low to high severity
(trace = 0 .. excep = 7) in include/wmp/log.hpp. -/
inductive levels_t where
  | trace
  | debug
  | info
  | notify
  | warn
  | error
  | fatal
  | excep
deriving DecidableEq, Repr

/-- Numeric value of a level, as produced by the int casts in the source. -/
def levels_t.toNat : levels_t → Nat
  | .trace => 0
  | .debug => 1
  | .info => 2
  | .notify => 3
  | .warn => 4
  | .error => 5
  | .fatal => 6
  | .excep => 7

/-- The inverse cast `static_cast<levels_t>(int)` used by `min_level()`. -/
def levels_t.fromNat : Nat → levels_t
  | 0 => .trace
  | 1 => .debug
  | 2 => .info
  | 3 => .notify
  | 4 => .warn
  | 5 => .error
  | 6 => .fatal
  | _ => .excep

/-- A log message (`log_t::msg_t`): severity plus the formatted text body. -/
structure msg_t where
  level_v : levels_t
  text_v : String
deriving DecidableEq, Repr

instance : Inhabited msg_t := ⟨⟨levels_t.trace, ""⟩⟩

/-- `data_t::syslog_states_t`. -/
inductive syslog_states_t where
  | disable
  | enable
  | app_name_changed
  | open_
  | closed
deriving DecidableEq, Repr

/-- OS-facing syslog calls performed by the dispatcher, recorded in order. -/
inductive sys_event where
  | closelog
  | setlogmask
  | openlog (name : String)
  | syslogw (priority : Nat) (text : String)
deriving DecidableEq, Repr

/-- The engine state `log_t::data_t`.  `messages_v` is the fixed circular
buffer (length `max_count_c`), `os_v` the eight per-level subscription
lists of sink handles, `ofs_v` the path table of managed files, and
`next_ofs_id` models allocation of a fresh `std::ofstream` handle. -/
structure data_t where
  ofs_v : List (String × Nat)
  os_v : List (List Nat)
  app_name_v : String
  level_v : Nat
  executing_v : Bool
  write_exception_v : Option String
  head_v : Nat
  tail_v : Nat
  max_count_c : Nat
  count_v : Nat
  messages_v : List msg_t
  syslog_state_v : syslog_states_t
  next_ofs_id : Nat
deriving DecidableEq, Repr

/-- The `data_t` constructor state: empty queue of capacity `maxCount`
(`WMP_CONF_MAX_LOG_QUEUE_LEN` in the source), default level `notify`,
default application name, syslog closed, write thread executing. -/
def data_t.init (maxCount : Nat) : data_t where
  ofs_v := []
  os_v := List.replicate 8 []
  app_name_v := "WMP LOG"
  level_v := levels_t.notify.toNat
  executing_v := true
  write_exception_v := none
  head_v := 0
  tail_v := 0
  max_count_c := maxCount
  count_v := 0
  messages_v := List.replicate maxCount default
  syslog_state_v := syslog_states_t.closed
  next_ofs_id := 0

/-- The severity to syslog priority map of `write_log_entry` (the switch
defaults to LOG_DEBUG, so trace and debug both map to priority 7). -/
def syslog_priority : levels_t → Nat
  | .excep => 0
  | .fatal => 2
  | .error => 3
  | .warn => 4
  | .notify => 5
  | .info => 6
  | _ => 7

/-- The fault predicate of `log_t::check_exceptions`: the write thread has
stopped and left a captured exception behind. -/
def data_t.faulted (d : data_t) : Bool :=
  !d.executing_v && d.write_exception_v.isSome

/-- Result of one `data_t::write_log_entry` call: the bool it returns, the
updated state, the syslog calls made, the per-sink writes made (sink
handle and text, in subscription order), and the record dispatched (none
when the queue was empty). -/
structure wle_result where
  ret : Bool
  state : data_t
  sys_calls : List sys_event
  sink_writes : List (Nat × String)
  dispatched : Option msg_t
deriving DecidableEq, Repr

/-- `data_t::write_log_entry` (src/unnamed/part_000 lines 177-260),
embedded faithfully.  Note two source oddities kept as written: the
disable branch executes `syslog_state_v == syslog_states_t::closed;`, a
comparison whose result is discarded, so the state stays `disable`; and
the function returns `count_v == 0` evaluated after the dequeue. -/
def data_t.write_log_entry (d : data_t) : wle_result :=
  if d.count_v = 0 then
    ⟨false, d, [], [], none⟩
  else
    let msg := d.messages_v.getD d.tail_v default
    let p1 : syslog_states_t × List sys_event :=
      if d.syslog_state_v = syslog_states_t.app_name_changed then
        (syslog_states_t.enable, [sys_event.closelog])
      else (d.syslog_state_v, [])
    let p2 : syslog_states_t × List sys_event :=
      if p1.1 = syslog_states_t.enable then
        (syslog_states_t.open_, [sys_event.setlogmask, sys_event.openlog d.app_name_v])
      else if p1.1 = syslog_states_t.disable then
        (p1.1, [sys_event.closelog])
      else (p1.1, [])
    let emit : List sys_event :=
      if p2.1 = syslog_states_t.open_ then
        [sys_event.syslogw (syslog_priority msg.level_v) msg.text_v]
      else []
    let writes := (d.os_v.getD msg.level_v.toNat []).map (fun os => (os, msg.text_v))
    let count' := d.count_v - 1
    let tailInc := d.tail_v + 1
    let tail' := if d.max_count_c ≤ tailInc then 0 else tailInc
    ⟨count' == 0,
     { d with syslog_state_v := p2.1, count_v := count', tail_v := tail' },
     p1.2 ++ p2.2 ++ emit, writes, some msg⟩

/-- The successful critical section of `data_t::enqueue`: store the message
at `head_v`, bump the count, advance and wrap the head. -/
def data_t.insert_msg (d : data_t) (msg : msg_t) : data_t :=
  let headInc := d.head_v + 1
  { d with
    messages_v := d.messages_v.set d.head_v msg
    count_v := d.count_v + 1
    head_v := if d.max_count_c ≤ headInc then 0 else headInc }

/-- Outcome of `data_t::enqueue` in the sequential model: `ok` when the
call returns (message enqueued, filtered out, or dropped because the
engine stopped cleanly), `fault` when `check_exceptions` rethrows the
captured write-thread exception, `blocked` when the queue is full and the
yield loop would spin until the consumer frees a slot. -/
inductive enq_result where
  | ok (d : data_t)
  | fault (e : String)
  | blocked
deriving DecidableEq, Repr

/-- `data_t::enqueue` (src/unnamed/part_000 lines 328-370): rethrow a
captured fault first, drop the message when its level is below the
minimum, then try to claim a queue slot while the engine executes. -/
def data_t.enqueue (d : data_t) (msg : msg_t) : enq_result :=
  if d.faulted then enq_result.fault (d.write_exception_v.getD "")
  else if msg.level_v.toNat < d.level_v then enq_result.ok d
  else if !d.executing_v then enq_result.ok d
  else if d.count_v < d.max_count_c then enq_result.ok (d.insert_msg msg)
  else enq_result.blocked

/-- The `std::find` guarded `push_back` used by `data_t::add_output`. -/
def add_to_vec (vec : List Nat) (os : Nat) : List Nat :=
  if os ∈ vec then vec else vec ++ [os]

/-- `data_t::add_output` (src/unnamed/part_000 lines 263-290): with an
empty level list, subscribe the sink to every level; the second loop over
`lvls` always runs (it is a no-op for the empty list). -/
def data_t.add_output (d : data_t) (os : Nat) (lvls : List levels_t) : data_t :=
  let os_v1 :=
    if lvls.length = 0 then d.os_v.map (fun vec => add_to_vec vec os) else d.os_v
  let os_v2 := lvls.foldl
    (fun acc lvl => acc.set lvl.toNat (add_to_vec (acc.getD lvl.toNat []) os)) os_v1
  { d with os_v := os_v2 }

/-- The `std::find` guarded `erase` used by `data_t::remove_output`. -/
def remove_from_vec (vec : List Nat) (os : Nat) : List Nat :=
  vec.erase os

/-- `data_t::remove_output` (src/unnamed/part_000 lines 293-326). -/
def data_t.remove_output (d : data_t) (os : Nat) (lvls : List levels_t) : data_t :=
  let os_v1 :=
    if lvls.length = 0 then d.os_v.map (fun vec => remove_from_vec vec os) else d.os_v
  let os_v2 := lvls.foldl
    (fun acc lvl => acc.set lvl.toNat (remove_from_vec (acc.getD lvl.toNat []) os)) os_v1
  { d with os_v := os_v2 }

namespace log_t

/-- `log_t::check_exceptions` (src/unnamed/part_000 lines 408-414):
rethrows the stored exception when the write thread stopped with one. -/
def check_exceptions (d : data_t) : Except String Unit :=
  if d.faulted then Except.error (d.write_exception_v.getD "") else Except.ok ()

/-- `log_t::min_level(lvl)` setter. -/
def min_level_set (d : data_t) (lvl : levels_t) : Except String data_t :=
  match check_exceptions d with
  | Except.error e => Except.error e
  | Except.ok _ => Except.ok { d with level_v := lvl.toNat }

/-- `log_t::min_level()` getter. -/
def min_level_get (d : data_t) : Except String levels_t :=
  match check_exceptions d with
  | Except.error e => Except.error e
  | Except.ok _ => Except.ok (levels_t.fromNat d.level_v)

/-- `log_t::add_output(std::ostream*, lvls)`. -/
def add_output_stream (d : data_t) (os : Nat) (lvls : List levels_t) :
    Except String data_t :=
  match check_exceptions d with
  | Except.error e => Except.error e
  | Except.ok _ => Except.ok (d.add_output os lvls)

/-- `log_t::add_output(path, lvls, append)` (src/unnamed/part_000 lines
466-497): if the path is not yet in the table, open the file (the flag
`can_open` models whether the `std::ofstream` open succeeds; on failure
the call returns false with the state unchanged) and store the new handle;
then subscribe the handle from the table.  The `append` flag only selects
the open mode of the underlying file and does not affect the state. -/
def add_output_path (d : data_t) (path : String) (lvls : List levels_t)
    (append : Bool) (can_open : Bool) : Except String (data_t × Bool) :=
  match check_exceptions d with
  | Except.error e => Except.error e
  | Except.ok _ =>
    let _ := append
    match d.ofs_v.lookup path with
    | some id => Except.ok (d.add_output id lvls, true)
    | none =>
      if can_open then
        let id := d.next_ofs_id
        let d1 := { d with ofs_v := d.ofs_v ++ [(path, id)], next_ofs_id := id + 1 }
        Except.ok (d1.add_output id lvls, true)
      else
        Except.ok (d, false)

/-- `log_t::remove_output(std::ostream*, lvls)`. -/
def remove_output_stream (d : data_t) (os : Nat) (lvls : List levels_t) :
    Except String data_t :=
  match check_exceptions d with
  | Except.error e => Except.error e
  | Except.ok _ => Except.ok (d.remove_output os lvls)

/-- `log_t::remove_output(path, lvls)` (src/unnamed/part_000 lines
514-531), embedded as written: when the path is present, the stream is
removed from the listed levels and then the path entry is erased from the
table unconditionally, whether or not `lvls` is empty. -/
def remove_output_path (d : data_t) (path : String) (lvls : List levels_t) :
    Except String data_t :=
  match check_exceptions d with
  | Except.error e => Except.error e
  | Except.ok _ =>
    match d.ofs_v.lookup path with
    | some id =>
      let d1 := d.remove_output id lvls
      Except.ok { d1 with ofs_v := d1.ofs_v.filter (fun p => p.1 != path) }
    | none => Except.ok d

/-- `log_t::enable_syslog`. -/
def enable_syslog (d : data_t) : Except String data_t :=
  match check_exceptions d with
  | Except.error e => Except.error e
  | Except.ok _ => Except.ok { d with syslog_state_v := syslog_states_t.enable }

/-- `log_t::disable_syslog`. -/
def disable_syslog (d : data_t) : Except String data_t :=
  match check_exceptions d with
  | Except.error e => Except.error e
  | Except.ok _ => Except.ok { d with syslog_state_v := syslog_states_t.disable }

/-- `log_t::write` forwards straight to `data_t::enqueue`. -/
def write (d : data_t) (msg : msg_t) : enq_result :=
  d.enqueue msg

end log_t

/-- The wait decision of `data_t::write_thread` while `executing_v` holds:
the consumer enters the 1 ms timed wait exactly when `write_log_entry`
returned false. -/
def write_thread_waits (d : data_t) : Bool :=
  !(d.write_log_entry).ret

/-- Fuelled unrolling of the flush loop `while(write_log_entry());`.
Each iteration that recurses has dispatched a record, so the queue count
strictly decreases and any fuel above `count_v` is never exhausted (see
`flush_fuel_sufficient`). -/
def flush_fuel : Nat → data_t → data_t × List msg_t
  | 0, d => (d, [])
  | fuel + 1, d =>
    let r := d.write_log_entry
    match r.dispatched with
    | none => (r.state, [])
    | some m =>
      if r.ret then
        let q := flush_fuel fuel r.state
        (q.1, m :: q.2)
      else (r.state, [m])

/-- The post-loop flush of `data_t::write_thread` (src/unnamed/part_000
line 156): `while(write_log_entry());` — keep calling `write_log_entry`
as long as it returns true.  Returns the final state and the records that
were dispatched, in order. -/
def data_t.flush_loop (d : data_t) : data_t × List msg_t :=
  flush_fuel (d.count_v + 1) d

/-- Call `write_log_entry` `n` times from state `d`, collecting for each
call that dispatched a record the record and the sink writes it made. -/
def dispatch_n : data_t → Nat → data_t × List (msg_t × List (Nat × String))
  | d, 0 => (d, [])
  | d, n + 1 =>
    let r := d.write_log_entry
    let rest := dispatch_n r.state n
    match r.dispatched with
    | some m => (rest.1, (m, r.sink_writes) :: rest.2)
    | none => rest

/-- Run a sequence of `enqueue` calls, requiring each to return (the
`ok` outcome); `none` when one would fault or block. -/
def enqueue_list : data_t → List msg_t → Option data_t
  | d, [] => some d
  | d, m :: ms =>
    match d.enqueue m with
    | enq_result.ok d' => enqueue_list d' ms
    | _ => none

/-- The queue contents in dispatch order: `count_v` records starting at
`tail_v` and wrapping modulo `max_count_c`. -/
def data_t.queueList (d : data_t) : List msg_t :=
  (List.range d.count_v).map
    (fun i => d.messages_v.getD ((d.tail_v + i) % d.max_count_c) default)

/-- The circular-buffer representation invariant: the buffer has exactly
`max_count_c` slots, the count never exceeds the capacity, head and tail
stay inside the buffer, and the head sits `count_v` slots past the tail
modulo the capacity. -/
def queue_inv (d : data_t) : Prop :=
  d.messages_v.length = d.max_count_c ∧
  d.count_v ≤ d.max_count_c ∧
  d.head_v < d.max_count_c ∧
  d.tail_v < d.max_count_c ∧
  d.head_v = (d.tail_v + d.count_v) % d.max_count_c

instance (d : data_t) : Decidable (queue_inv d) := by
  unfold queue_inv
  infer_instance

/-- One atomic queue operation under `mutex_v`: a producer's critical
section in `enqueue` (which inserts only when a slot is free, else leaves
the state untouched and yields), or the consumer's `write_log_entry`. -/
inductive qop where
  | enq (m : msg_t)
  | deq
deriving DecidableEq, Repr

/-- Apply one atomic queue operation to the state. -/
def apply_op (d : data_t) : qop → data_t
  | qop.enq m => if d.count_v < d.max_count_c then d.insert_msg m else d
  | qop.deq => (d.write_log_entry).state

/-- Apply a whole interleaving of queue operations. -/
def apply_ops (d : data_t) (ops : List qop) : data_t := ops.foldl apply_op d

/-- Deduplication invariant of the sink registry: no level's subscription
list holds the same sink handle twice. -/
def levels_nodup (d : data_t) : Prop := ∀ vec ∈ d.os_v, vec.Nodup

/-- A first concrete record used by the concrete-state theorems. -/
def msg_a : msg_t := ⟨levels_t.notify, "record A"⟩

/-- A second concrete record used by the concrete-state theorems. -/
def msg_b : msg_t := ⟨levels_t.error, "record B"⟩

/-- A capacity-4 engine with two records queued and the shutdown flag
already cleared: the state in which `write_thread` enters its post-loop
flush. -/
def shutdown_two : data_t :=
  { ((data_t.init 4).insert_msg msg_a).insert_msg msg_b with executing_v := false }

/-- A running capacity-4 engine with two records queued. -/
def running_two : data_t :=
  ((data_t.init 4).insert_msg msg_a).insert_msg msg_b

/-- A capacity-4 engine with two records queued and syslog in the
`disable` desired state, as left by `log_t::disable_syslog`. -/
def disable_two : data_t :=
  { running_two with syslog_state_v := syslog_states_t.disable }

/-- The spec section 8 worked example: capacity 4, minimum level warn. -/
def ex_init : data_t := { data_t.init 4 with level_v := levels_t.warn.toNat }

/-- The worked example's info record. -/
def ex_info : msg_t := ⟨levels_t.info, "m1 info"⟩

/-- The worked example's first warn record. -/
def ex_warn1 : msg_t := ⟨levels_t.warn, "m2 warn"⟩

/-- The worked example's error record. -/
def ex_error : msg_t := ⟨levels_t.error, "m3 error"⟩

/-- The worked example's second warn record. -/
def ex_warn2 : msg_t := ⟨levels_t.warn, "m4 warn"⟩

/-- The worked example's fatal record. -/
def ex_fatal : msg_t := ⟨levels_t.fatal, "m5 fatal"⟩

/-- The worked example's write sequence info, warn, error, warn, fatal. -/
def ex_msgs : List msg_t := [ex_info, ex_warn1, ex_error, ex_warn2, ex_fatal]

/-- State after registering the managed file "app.log" on all levels in a
fresh capacity-4 engine (the open succeeds). -/
def c5_after_add : Except String (data_t × Bool) :=
  log_t.add_output_path (data_t.init 4) "app.log" [] false true

/-- State after then removing "app.log" from only the warn level. -/
def c5_after_remove : Except String data_t :=
  match c5_after_add with
  | Except.ok (d, _) => log_t.remove_output_path d "app.log" [levels_t.warn]
  | Except.error e => Except.error e

/-- A capacity-4 engine whose write thread died with a captured exception
while the queue is full: the worst case for a producer, which would
otherwise block on the full queue. -/
def faulted_full : data_t :=
  { data_t.init 4 with
    executing_v := false
    write_exception_v := some "disk full"
    count_v := 4 }

/-- A capacity-4 engine in which the managed file "app.log" is already
present in the path table under handle 0. -/
def registered_state : data_t :=
  { data_t.init 4 with ofs_v := [("app.log", 0)], next_ofs_id := 1 }

/-- C1: claimed that the post-loop flush `while(write_log_entry());`
dispatches every record still enqueued when `executing_v` is cleared.  At
a shutdown state with N = 2 records queued, the flush dispatches only the
first record and exits with one record still enqueued: `write_log_entry`
returns `count_v == 0`, which is false while records remain, so the while
loop stops after the first call. -/
theorem c1_drain_on_shutdown_incomplete :
    shutdown_two.count_v = 2 ∧
    shutdown_two.flush_loop.2 = [msg_a] ∧
    shutdown_two.flush_loop.1.count_v = 1 := by decide

/-- C5: claimed that `remove_output(path, lvls)` with non-empty `lvls`
keeps the file open and in the path table.  Evaluating the code after
registering "app.log" on all levels and removing it from only the warn
level: the path is gone from the table (so the managed stream is
destroyed), while the handle is still subscribed at the seven other
levels. -/
theorem c5_partial_remove_erases_path :
    c5_after_remove.map (fun d => (d.ofs_v.lookup "app.log", d.os_v)) =
      Except.ok (none, [[0], [0], [0], [0], [], [0], [0], [0]]) := by rfl

/-- C6: claimed that processing a record while the desired syslog state is
`disable` closes syslog and transitions the state to `closed`, so later
records trigger no further close.  In the code the disable branch's
`syslog_state_v == syslog_states_t::closed;` is a comparison whose result
is discarded: the state stays `disable` and the next dispatched record
calls `closelog` again. -/
theorem c6_syslog_disable_not_reconciled :
    (disable_two.write_log_entry).sys_calls = [sys_event.closelog] ∧
    (disable_two.write_log_entry).state.syslog_state_v = syslog_states_t.disable ∧
    ((disable_two.write_log_entry).state.write_log_entry).sys_calls =
      [sys_event.closelog] := by decide

/-- C8: claimed that the running consumer enters the timed wait only when
the queue was empty and nothing was dispatched.  At a running state with
two records queued, `write_log_entry` dispatches a record, leaves one
record enqueued, and still returns false, so `write_thread` enters the
1 ms wait instead of popping the next record immediately. -/
theorem c8_waits_despite_successful_dispatch :
    (running_two.write_log_entry).dispatched = some msg_a ∧
    (running_two.write_log_entry).state.count_v = 1 ∧
    write_thread_waits running_two = true := by decide

/-- C9 counterexample: the claim (and spec section 8) says exactly 3
records end up queued and delivered for the write sequence info, warn,
error, warn, fatal under minimum level warn.  Four of those five levels
are ≥ warn, and evaluating `enqueue` on the code shows 4 records queued,
not 3. -/
theorem c9_worked_example_count_is_four :
    (enqueue_list ex_init ex_msgs).map (fun d => d.count_v) = some 4 ∧
    (enqueue_list ex_init ex_msgs).map (fun d => d.count_v) ≠ some 3 := by decide

/-- C9 amended: with capacity 4 and minimum level warn, writing records at
levels info, warn, error, warn, fatal queues exactly 4 records — warn,
error, warn, fatal, order preserved — delivers them in that order, and the
info record is dropped at enqueue time, never occupying a queue slot. -/
theorem c9_worked_example_amended :
    (enqueue_list ex_init ex_msgs).map (fun d => d.queueList) =
      some [ex_warn1, ex_error, ex_warn2, ex_fatal] ∧
    (enqueue_list ex_init ex_msgs).map
        (fun d => (dispatch_n d d.count_v).2.map (fun p => p.1)) =
      some [ex_warn1, ex_error, ex_warn2, ex_fatal] ∧
    (enqueue_list ex_init ex_msgs).map (fun d => decide (ex_info ∈ d.queueList)) =
      some false := by decide

/-- C2: a message strictly below the minimum level makes `enqueue` return
with the state untouched (so the record never occupies a queue slot and is
never dispatched to a sink), while a message at or above the minimum level
is stored in the queue when the engine is running, un-faulted, and a slot
is free. -/
theorem c2_severity_filtering (d : data_t) (m : msg_t)
    (hflt : d.faulted = false) :
    (m.level_v.toNat < d.level_v → d.enqueue m = enq_result.ok d) ∧
    (¬ m.level_v.toNat < d.level_v → d.executing_v = true →
      d.count_v < d.max_count_c →
      d.enqueue m = enq_result.ok (d.insert_msg m)) := by
  constructor
  · intro hlt
    simp [data_t.enqueue, hflt, hlt]
  · intro hge hex hcnt
    simp [data_t.enqueue, hflt, hge, hex, hcnt]

/-- C2 witness: the initial capacity-4 engine drops a debug message
(debug = 1 is below the default minimum notify = 3). -/
theorem c2_severity_filtering_witness :
    (data_t.init 4).faulted = false ∧
    (((msg_t.mk levels_t.debug "low").level_v.toNat < (data_t.init 4).level_v →
        (data_t.init 4).enqueue (msg_t.mk levels_t.debug "low") =
          enq_result.ok (data_t.init 4)) ∧
     (¬ (msg_t.mk levels_t.debug "low").level_v.toNat < (data_t.init 4).level_v →
        (data_t.init 4).executing_v = true →
        (data_t.init 4).count_v < (data_t.init 4).max_count_c →
        (data_t.init 4).enqueue (msg_t.mk levels_t.debug "low") =
          enq_result.ok ((data_t.init 4).insert_msg (msg_t.mk levels_t.debug "low")))) :=
  ⟨by decide, c2_severity_filtering (data_t.init 4) (msg_t.mk levels_t.debug "low")
    (by decide)⟩

/-- C4: once the write thread has captured a fault (`executing_v` false
and `write_exception_v` set), every public operation — min_level get and
set, both add_output forms, both remove_output forms, enable_syslog,
disable_syslog, and write — rethrows the captured exception instead of
acting.  The `write` conjunct holds with no assumption on `count_v`, so a
write against a full queue also surfaces the fault rather than spinning:
`enqueue` rechecks `check_exceptions` before every slot attempt. -/
theorem c4_fault_surfacing (d : data_t) (e : String) (lvl : levels_t) (os : Nat)
    (path : String) (lvls : List levels_t) (m : msg_t) (ap co : Bool)
    (hex : d.executing_v = false) (hsome : d.write_exception_v = some e) :
    log_t.min_level_get d = Except.error e ∧
    log_t.min_level_set d lvl = Except.error e ∧
    log_t.add_output_stream d os lvls = Except.error e ∧
    log_t.add_output_path d path lvls ap co = Except.error e ∧
    log_t.remove_output_stream d os lvls = Except.error e ∧
    log_t.remove_output_path d path lvls = Except.error e ∧
    log_t.enable_syslog d = Except.error e ∧
    log_t.disable_syslog d = Except.error e ∧
    log_t.write d m = enq_result.fault e := by
  have hf : d.faulted = true := by
    simp [data_t.faulted, hex, hsome]
  have hchk : log_t.check_exceptions d = Except.error e := by
    simp [log_t.check_exceptions, hf, hsome]
  refine ⟨?_, ?_, ?_, ?_, ?_, ?_, ?_, ?_, ?_⟩ <;>
    simp [log_t.min_level_get, log_t.min_level_set, log_t.add_output_stream,
      log_t.add_output_path, log_t.remove_output_stream, log_t.remove_output_path,
      log_t.enable_syslog, log_t.disable_syslog, log_t.write, data_t.enqueue,
      hchk, hf, hsome]

/-- C4 witness: a faulted engine whose queue is also full surfaces the
captured "disk full" exception on every public operation. -/
theorem c4_fault_surfacing_witness :
    (faulted_full.executing_v = false ∧
     faulted_full.write_exception_v = some "disk full") ∧
    (log_t.min_level_get faulted_full = Except.error "disk full" ∧
     log_t.min_level_set faulted_full levels_t.warn = Except.error "disk full" ∧
     log_t.add_output_stream faulted_full 7 [] = Except.error "disk full" ∧
     log_t.add_output_path faulted_full "a.log" [] false true =
       Except.error "disk full" ∧
     log_t.remove_output_stream faulted_full 7 [] = Except.error "disk full" ∧
     log_t.remove_output_path faulted_full "a.log" [] = Except.error "disk full" ∧
     log_t.enable_syslog faulted_full = Except.error "disk full" ∧
     log_t.disable_syslog faulted_full = Except.error "disk full" ∧
     log_t.write faulted_full msg_b = enq_result.fault "disk full") :=
  ⟨⟨rfl, rfl⟩, c4_fault_surfacing faulted_full "disk full" levels_t.warn 7 "a.log"
    [] msg_b false true rfl rfl⟩

/-- The guarded push_back keeps a duplicate-free list duplicate-free. -/
theorem add_to_vec_nodup (vec : List Nat) (os : Nat) (h : vec.Nodup) :
    (add_to_vec vec os).Nodup := by
  unfold add_to_vec
  split
  · exact h
  · next hmem =>
    simp [List.nodup_append, h, hmem]

/-- Reading a per-level list out of a registry whose lists are all
duplicate-free yields a duplicate-free list (the default is empty). -/
theorem getD_vec_nodup (acc : List (List Nat)) (h : ∀ v ∈ acc, v.Nodup) (i : Nat) :
    (acc.getD i []).Nodup := by
  by_cases hi : i < acc.length
  · rw [List.getD_eq_getElem acc [] hi]
    exact h _ (List.getElem_mem hi)
  · rw [List.getD_eq_default acc [] (by omega)]
    exact List.nodup_nil

/-- The per-level subscription loop of `add_output` preserves the
registry-wide no-duplicates property. -/
theorem foldl_add_nodup (os : Nat) (lvls : List levels_t) :
    ∀ acc : List (List Nat), (∀ v ∈ acc, v.Nodup) →
      ∀ v ∈ lvls.foldl
        (fun acc lvl => acc.set lvl.toNat (add_to_vec (acc.getD lvl.toNat []) os)) acc,
        v.Nodup := by
  induction lvls with
  | nil =>
    intro acc h
    simpa using h
  | cons l ls ih =>
    intro acc h
    simp only [List.foldl_cons]
    apply ih
    intro v hv
    rcases List.mem_or_eq_of_mem_set hv with h1 | h1
    · exact h v h1
    · subst h1
      exact add_to_vec_nodup _ _ (getD_vec_nodup acc h _)

/-- `data_t::add_output` preserves the registry-wide no-duplicates
property, for both the all-levels branch and the listed-levels loop. -/
theorem add_output_nodup (d : data_t) (os : Nat) (lvls : List levels_t)
    (h : levels_nodup d) : levels_nodup (d.add_output os lvls) := by
  unfold levels_nodup data_t.add_output at *
  intro v hv
  refine foldl_add_nodup os lvls _ ?_ v hv
  intro w hw
  split at hw
  · obtain ⟨w0, hw0, rfl⟩ := List.mem_map.mp hw
    exact add_to_vec_nodup _ _ (h w0 hw0)
  · exact h w hw

/-- C7: a second `add_output(path, ...)` while the path is in the table
opens no new handle (the path table and the handle counter are unchanged;
the registered stream is reused), and every `add_output` call keeps each
level's subscription list free of duplicate handles, so no line is
delivered twice to one stream. -/
theorem c7_idempotent_registration (d : data_t) (path : String) (id : Nat)
    (lvls : List levels_t) (ap co : Bool)
    (hflt : d.faulted = false) (hpath : d.ofs_v.lookup path = some id) :
    log_t.add_output_path d path lvls ap co =
      Except.ok (d.add_output id lvls, true) ∧
    (d.add_output id lvls).ofs_v = d.ofs_v ∧
    (d.add_output id lvls).next_ofs_id = d.next_ofs_id ∧
    (∀ d0 : data_t, ∀ os : Nat, ∀ l : List levels_t,
      levels_nodup d0 → levels_nodup (d0.add_output os l)) := by
  refine ⟨?_, rfl, rfl, fun d0 os l h => add_output_nodup d0 os l h⟩
  simp [log_t.add_output_path, log_t.check_exceptions, hflt, hpath]

/-- C7 witness: re-registering "app.log" (already open as handle 0) on the
warn level reuses the handle and leaves the path table untouched. -/
theorem c7_idempotent_registration_witness :
    (registered_state.faulted = false ∧
     registered_state.ofs_v.lookup "app.log" = some 0) ∧
    (log_t.add_output_path registered_state "app.log" [levels_t.warn] false true =
       Except.ok (registered_state.add_output 0 [levels_t.warn], true) ∧
     (registered_state.add_output 0 [levels_t.warn]).ofs_v =
       registered_state.ofs_v ∧
     (registered_state.add_output 0 [levels_t.warn]).next_ofs_id =
       registered_state.next_ofs_id ∧
     (∀ d0 : data_t, ∀ os : Nat, ∀ l : List levels_t,
       levels_nodup d0 → levels_nodup (d0.add_output os l))) :=
  ⟨⟨rfl, rfl⟩, c7_idempotent_registration registered_state "app.log" 0
    [levels_t.warn] false true rfl rfl⟩

/-- The enqueue critical section preserves the circular-buffer invariant
when a slot is free. -/
theorem insert_msg_inv (d : data_t) (m : msg_t) (hinv : queue_inv d)
    (hc : d.count_v < d.max_count_c) : queue_inv (d.insert_msg m) := by
  obtain ⟨hlen, hcnt, hhead, htail, heq⟩ := hinv
  have key : (d.head_v + 1) % d.max_count_c =
      (d.tail_v + d.count_v + 1) % d.max_count_c := by
    rw [heq]
    exact (Nat.mod_modEq (d.tail_v + d.count_v) d.max_count_c).add_right 1
  refine ⟨by simp [data_t.insert_msg, hlen], by simp [data_t.insert_msg]; omega,
    ?_, by simpa [data_t.insert_msg] using htail, ?_⟩
  · simp only [data_t.insert_msg]
    split
    · omega
    · next hlt => omega
  · show (if d.max_count_c ≤ d.head_v + 1 then 0 else d.head_v + 1) =
      (d.tail_v + (d.count_v + 1)) % d.max_count_c
    rw [show d.tail_v + (d.count_v + 1) = d.tail_v + d.count_v + 1 from by omega,
      ← key]
    split
    · next hle =>
      have : d.head_v + 1 = d.max_count_c := by omega
      rw [this, Nat.mod_self]
    · next hlt =>
      rw [Nat.mod_eq_of_lt (by omega)]

/-- Fields of the state that `write_log_entry` never touches. -/
theorem write_log_entry_state_fields (d : data_t) :
    (d.write_log_entry).state.messages_v = d.messages_v ∧
    (d.write_log_entry).state.head_v = d.head_v ∧
    (d.write_log_entry).state.max_count_c = d.max_count_c ∧
    (d.write_log_entry).state.os_v = d.os_v ∧
    (d.write_log_entry).state.level_v = d.level_v ∧
    (d.write_log_entry).state.executing_v = d.executing_v ∧
    (d.write_log_entry).state.write_exception_v = d.write_exception_v := by
  unfold data_t.write_log_entry
  split <;> simp

/-- When the queue is non-empty, `write_log_entry` decrements the count
and advances the tail with the source's wrap test. -/
theorem write_log_entry_count_tail (d : data_t) (hc : d.count_v ≠ 0) :
    (d.write_log_entry).state.count_v = d.count_v - 1 ∧
    (d.write_log_entry).state.tail_v =
      (if d.max_count_c ≤ d.tail_v + 1 then 0 else d.tail_v + 1) := by
  unfold data_t.write_log_entry
  simp [hc]

/-- Under the invariant, the source's wrap test on the tail computes the
modular increment. -/
theorem write_log_entry_tail_mod (d : data_t) (hinv : queue_inv d)
    (hc : d.count_v ≠ 0) :
    (d.write_log_entry).state.tail_v = (d.tail_v + 1) % d.max_count_c := by
  obtain ⟨hlen, hcnt, hhead, htail, heq⟩ := hinv
  obtain ⟨-, htv⟩ := write_log_entry_count_tail d hc
  rw [htv]
  split
  · next hle =>
    have : d.tail_v + 1 = d.max_count_c := by omega
    rw [this, Nat.mod_self]
  · next hlt => rw [Nat.mod_eq_of_lt (by omega)]

/-- `write_log_entry` preserves the circular-buffer invariant. -/
theorem write_log_entry_inv (d : data_t) (hinv : queue_inv d) :
    queue_inv (d.write_log_entry).state := by
  obtain ⟨hlen, hcnt, hhead, htail, heq⟩ := hinv
  by_cases hc : d.count_v = 0
  · unfold data_t.write_log_entry
    simp only [hc, if_pos rfl]
    exact ⟨hlen, hcnt, hhead, htail, heq⟩
  · obtain ⟨hcv, htv⟩ := write_log_entry_count_tail d hc
    obtain ⟨hm, hh, hmx, -, -, -, -⟩ := write_log_entry_state_fields d
    have htail' : (d.write_log_entry).state.tail_v =
        (d.tail_v + 1) % d.max_count_c :=
      write_log_entry_tail_mod d ⟨hlen, hcnt, hhead, htail, heq⟩ hc
    refine ⟨by rw [hm, hmx]; exact hlen, by rw [hcv, hmx]; omega,
      by rw [hh, hmx]; exact hhead, by rw [htv, hmx]; split <;> omega, ?_⟩
    rw [hh, hmx, hcv, htail', heq]
    have step : ((d.tail_v + 1) % d.max_count_c + (d.count_v - 1)) % d.max_count_c
        = (d.tail_v + 1 + (d.count_v - 1)) % d.max_count_c :=
      (Nat.mod_modEq (d.tail_v + 1) d.max_count_c).add_right (d.count_v - 1)
    rw [step, show d.tail_v + 1 + (d.count_v - 1) = d.tail_v + d.count_v from
      by omega]

/-- Every atomic queue operation preserves the circular-buffer invariant. -/
theorem apply_op_inv (d : data_t) (op : qop) (hinv : queue_inv d) :
    queue_inv (apply_op d op) := by
  cases op with
  | enq m =>
    simp only [apply_op]
    split
    · next hlt => exact insert_msg_inv d m hinv hlt
    · exact hinv
  | deq =>
    simp only [apply_op]
    exact write_log_entry_inv d hinv

/-- Every interleaving of atomic queue operations preserves the
circular-buffer invariant. -/
theorem apply_ops_inv (ops : List qop) :
    ∀ d : data_t, queue_inv d → queue_inv (apply_ops d ops) := by
  induction ops with
  | nil =>
    intro d h
    exact h
  | cons op ops ih =>
    intro d h
    exact ih _ (apply_op_inv d op h)

/-- C10: from the constructor state (head = tail = count = 0) of any
positive capacity, every interleaving of enqueue critical sections and
`write_log_entry` calls keeps 0 ≤ count ≤ capacity, head < capacity,
tail < capacity, and head = (tail + count) mod capacity; moreover an
enqueue attempt against a full queue leaves the state — in particular
every buffered message — completely unchanged, so no undelivered slot is
ever overwritten. -/
theorem c10_circular_buffer_invariant (n : Nat) (hn : 0 < n) (ops : List qop) :
    queue_inv (apply_ops (data_t.init n) ops) ∧
    (∀ d : data_t, ∀ m : msg_t, d.count_v = d.max_count_c →
      apply_op d (qop.enq m) = d) := by
  constructor
  · refine apply_ops_inv ops _ ⟨by simp [data_t.init], by simp [data_t.init],
      by simpa [data_t.init] using hn, by simpa [data_t.init] using hn,
      by simp [data_t.init]⟩
  · intro d m hfull
    simp [apply_op, hfull]

/-- C10 witness: a capacity-4 queue under a concrete interleaving of three
enqueues and four dequeues. -/
theorem c10_circular_buffer_invariant_witness :
    0 < 4 ∧
    (queue_inv (apply_ops (data_t.init 4)
        [qop.enq msg_a, qop.enq msg_b, qop.deq, qop.enq msg_a, qop.deq,
         qop.deq, qop.deq]) ∧
     (∀ d : data_t, ∀ m : msg_t, d.count_v = d.max_count_c →
       apply_op d (qop.enq m) = d)) :=
  ⟨by decide, c10_circular_buffer_invariant 4 (by decide)
    [qop.enq msg_a, qop.enq msg_b, qop.deq, qop.enq msg_a, qop.deq,
     qop.deq, qop.deq]⟩

/-- Distinct offsets within one window of the capacity land on distinct
buffer slots. -/
theorem mod_window_inj (n t a b : Nat) (ha : a < n) (hb : b < n)
    (h : (t + a) % n = (t + b) % n) : a = b := by
  have h2 : a % n = b % n := Nat.ModEq.add_left_cancel' t h
  rwa [Nat.mod_eq_of_lt ha, Nat.mod_eq_of_lt hb] at h2

/-- The enqueue critical section appends the new message at the end of the
queue contents. -/
theorem insert_msg_queueList (d : data_t) (m : msg_t) (hinv : queue_inv d)
    (hc : d.count_v < d.max_count_c) :
    (d.insert_msg m).queueList = d.queueList ++ [m] := by
  obtain ⟨hlen, hcnt, hhead, htail, heq⟩ := hinv
  unfold data_t.queueList
  simp only [data_t.insert_msg]
  rw [List.range_succ, List.map_append]
  congr 1
  · apply List.map_congr_left
    intro i hi
    have hi' : i < d.count_v := List.mem_range.mp hi
    have hne : d.head_v ≠ (d.tail_v + i) % d.max_count_c := by
      rw [heq]
      intro hcontra
      have := mod_window_inj d.max_count_c d.tail_v d.count_v i
        (by omega) (by omega) hcontra
      omega
    rw [List.getD_eq_getElem?_getD, List.getD_eq_getElem?_getD,
      List.getElem?_set_ne hne]
  · simp only [List.map_cons, List.map_nil, List.cons.injEq, and_true]
    rw [← heq, List.getD_eq_getElem?_getD, List.getElem?_set_self (by omega)]
    rfl

/-- On a non-empty queue, `write_log_entry` dispatches the record at the
front of the queue contents, writes it to exactly the sinks subscribed to
its level (in subscription order), and leaves the remaining contents as
the tail. -/
theorem write_log_entry_front (d : data_t) (hinv : queue_inv d)
    (hc : d.count_v ≠ 0) :
    (d.write_log_entry).dispatched = some (d.messages_v.getD d.tail_v default) ∧
    (d.write_log_entry).sink_writes =
      (d.os_v.getD (d.messages_v.getD d.tail_v default).level_v.toNat []).map
        (fun os => (os, (d.messages_v.getD d.tail_v default).text_v)) ∧
    d.queueList = d.messages_v.getD d.tail_v default ::
      (d.write_log_entry).state.queueList := by
  obtain ⟨hlen, hcnt, hhead, htail, heq⟩ := hinv
  refine ⟨?_, ?_, ?_⟩
  · unfold data_t.write_log_entry
    simp [hc]
  · unfold data_t.write_log_entry
    simp [hc]
  · have htail' : (d.write_log_entry).state.tail_v =
        (d.tail_v + 1) % d.max_count_c :=
      write_log_entry_tail_mod d ⟨hlen, hcnt, hhead, htail, heq⟩ hc
    obtain ⟨hcv, -⟩ := write_log_entry_count_tail d hc
    obtain ⟨hm, -, hmx, -, -, -, -⟩ := write_log_entry_state_fields d
    unfold data_t.queueList
    rw [hm, hmx, hcv, htail']
    conv_lhs => rw [show d.count_v = (d.count_v - 1) + 1 from by omega]
    rw [List.range_succ_eq_map, List.map_cons, List.map_map]
    congr 1
    · rw [Nat.add_zero, Nat.mod_eq_of_lt htail]
    · apply List.map_congr_left
      intro i hi
      simp only [Function.comp_apply]
      congr 1
      have step : ((d.tail_v + 1) % d.max_count_c + i) % d.max_count_c
          = (d.tail_v + 1 + i) % d.max_count_c :=
        (Nat.mod_modEq (d.tail_v + 1) d.max_count_c).add_right i
      rw [step, show d.tail_v + 1 + i = d.tail_v + Nat.succ i from by omega]

/-- Running the consumer once per queued record dispatches exactly the
queue contents, in order, each record paired with the writes to the sinks
subscribed to its level. -/
theorem dispatch_n_queueList :
    ∀ (n : Nat) (d : data_t), queue_inv d → d.count_v = n →
      (dispatch_n d n).2 = d.queueList.map
        (fun m => (m, (d.os_v.getD m.level_v.toNat []).map
          (fun os => (os, m.text_v)))) := by
  intro n
  induction n with
  | zero =>
    intro d hinv h0
    simp [dispatch_n, data_t.queueList, h0]
  | succ n ih =>
    intro d hinv hn
    have hc : d.count_v ≠ 0 := by omega
    obtain ⟨hdisp, hwrites, hlist⟩ := write_log_entry_front d hinv hc
    obtain ⟨hcv, -⟩ := write_log_entry_count_tail d hc
    obtain ⟨-, -, -, hos, -, -, -⟩ := write_log_entry_state_fields d
    have hrec := ih (d.write_log_entry).state (write_log_entry_inv d hinv)
      (by omega)
    simp only [dispatch_n, hdisp]
    rw [hrec, hlist, hos, List.map_cons, hwrites]

/-- A run of successful enqueues appends the messages to the queue
contents in call order, preserving the invariant, the count arithmetic,
and the sink registry. -/
theorem enqueue_list_spec (ms : List msg_t) :
    ∀ d : data_t, queue_inv d → d.faulted = false → d.executing_v = true →
      (∀ m ∈ ms, ¬ m.level_v.toNat < d.level_v) →
      d.count_v + ms.length ≤ d.max_count_c →
      ∃ d', enqueue_list d ms = some d' ∧ queue_inv d' ∧
        d'.queueList = d.queueList ++ ms ∧
        d'.count_v = d.count_v + ms.length ∧
        d'.os_v = d.os_v := by
  induction ms with
  | nil =>
    intro d h1 _ _ _ _
    exact ⟨d, rfl, h1, by simp, by simp, rfl⟩
  | cons m ms ih =>
    intro d hinv hflt hexe hlvl hsp
    have hm : ¬ m.level_v.toNat < d.level_v := hlvl m (by simp)
    have hc : d.count_v < d.max_count_c := by
      simp only [List.length_cons] at hsp
      omega
    have henq : d.enqueue m = enq_result.ok (d.insert_msg m) := by
      simp [data_t.enqueue, hflt, hm, hexe, hc]
    obtain ⟨d', hrun, hinv', hql, hcnt, hosv⟩ := ih (d.insert_msg m)
      (insert_msg_inv d m hinv hc) hflt hexe
      (fun w hw => hlvl w (by simp [hw]))
      (by simp only [data_t.insert_msg, List.length_cons] at hsp ⊢; omega)
    refine ⟨d', ?_, hinv', ?_, ?_, hosv⟩
    · simp [enqueue_list, henq, hrun]
    · rw [hql, insert_msg_queueList d m hinv hc]
      simp
    · rw [hcnt]
      simp only [data_t.insert_msg, List.length_cons]
      omega

/-- C3: for any run of enqueue calls that all complete successfully (the
engine running and un-faulted, each record at or above the minimum level,
enough free slots), draining the queue dispatches the previously queued
records followed by the new records in exactly enqueue order, and each
record is written to every sink subscribed to its level within its own
`write_log_entry` call — all of record N's sink writes happen before any
of record N+1's, since the consumer pops the next record only after the
current call returns. -/
theorem c3_fifo_dispatch_order (d : data_t) (ms : List msg_t)
    (hinv : queue_inv d) (hflt : d.faulted = false) (hexe : d.executing_v = true)
    (hlvl : ∀ m ∈ ms, ¬ m.level_v.toNat < d.level_v)
    (hsp : d.count_v + ms.length ≤ d.max_count_c) :
    ∃ d', enqueue_list d ms = some d' ∧
      (dispatch_n d' d'.count_v).2 = (d.queueList ++ ms).map
        (fun m => (m, (d.os_v.getD m.level_v.toNat []).map
          (fun os => (os, m.text_v)))) := by
  obtain ⟨d', h1, hinv', hql, hcnt, hosv⟩ :=
    enqueue_list_spec ms d hinv hflt hexe hlvl hsp
  refine ⟨d', h1, ?_⟩
  rw [dispatch_n_queueList d'.count_v d' hinv' rfl, hql, hosv]

/-- C3 witness: enqueue a warn and a fatal record into the fresh warn-level
engine and drain. -/
theorem c3_fifo_dispatch_order_witness :
    (queue_inv ex_init ∧ ex_init.faulted = false ∧ ex_init.executing_v = true ∧
     (∀ m ∈ [ex_warn1, ex_fatal], ¬ m.level_v.toNat < ex_init.level_v) ∧
     ex_init.count_v + [ex_warn1, ex_fatal].length ≤ ex_init.max_count_c) ∧
    (∃ d', enqueue_list ex_init [ex_warn1, ex_fatal] = some d' ∧
      (dispatch_n d' d'.count_v).2 = (ex_init.queueList ++ [ex_warn1, ex_fatal]).map
        (fun m => (m, (ex_init.os_v.getD m.level_v.toNat []).map
          (fun os => (os, m.text_v))))) :=
  ⟨⟨by decide, rfl, rfl, by decide, by decide⟩,
   c3_fifo_dispatch_order ex_init [ex_warn1, ex_fatal] (by decide) rfl rfl
     (by decide) (by decide)⟩

end Wmp
